import Mathlib

/-!
Verification of the Spanner example program (`main.go`).

The program is a sequential client: it parses a database resource
identifier with the pattern regexp `^(.*)/databases/(.*)$`, provisions a
database, seeds two tables with two mutation batches, and runs one query.
We embed each function as a pure Lean function; the external database
service and client library are modelled as an explicit environment
(outcomes of each remote call), and observable behavior is recorded as an
event trace.
-/

/-- The literal segment `/databases/` appearing in the pattern used by
`createDatabase`. -/
def dbSeg : List Char := "/databases/".toList

/-- Test whether the pattern occurs at the start of the second list. -/
def beginsWith : List Char → List Char → Bool
  | [], _ => true
  | _ :: _, [] => false
  | p :: ps, c :: cs => p == c && beginsWith ps cs

/-- The greedy split of the pattern: split the string at the LAST
occurrence of `/databases/` (the recursion prefers a match found in the
tail, an occurrence at a position ≥ 1, over one at position 0).  This is
the pattern match without the newline restriction of the dot; the full
semantics is in findStringSubmatch below. -/
def splitAtLastSeg : List Char → Option (List Char × List Char)
  | [] => none
  | c :: rest =>
    match splitAtLastSeg rest with
    | some (p, n) => some (c :: p, n)
    | none =>
      if beginsWith dbSeg (c :: rest) then
        some ([], (c :: rest).drop dbSeg.length)
      else none

/-- Embedding of
`regexp.MustCompile("^(.*)/databases/(.*)$").FindStringSubmatch(db)`
(main.go line 58), returning the two capture groups.  In RE2 the default
dot matches any character EXCEPT newline, so the anchored pattern matches
exactly the newline-free strings containing the segment; on a match the
first group `(.*)` is greedy, so the split falls at the last occurrence
of the segment. -/
def findStringSubmatch (s : List Char) : Option (List Char × List Char) :=
  if '\n' ∈ s then none else splitAtLastSeg s

/-- Error values surfaced by the client library (carrying a gRPC status
code) or built with fmt.Errorf (a plain formatted error). -/
inductive SpError where
  | rpc (code : Nat) (msg : String)
  | generic (msg : String)
deriving DecidableEq

/-- Embedding of spanner.ErrCode: OK (0) for a nil error, the gRPC status
code for library errors, and Unknown (2) for plain formatted errors. -/
def ErrCode : Option SpError → Nat
  | none => 0
  | some (.rpc c _) => c
  | some (.generic _) => 2

/-- The gRPC status code codes.AlreadyExists. -/
def AlreadyExists : Nat := 6

/-- A cell value passed in a mutation or returned in a row. -/
inductive Value where
  | str (s : String)
  | bytes (b : List Nat)
deriving DecidableEq

/-- Embedding of *spanner.Mutation.  Every mutation the program builds is
created with spanner.InsertOrUpdate, so the operation is implicit. -/
structure Mutation where
  table : String
  columns : List String
  values : List Value
deriving DecidableEq

/-- Embedding of the spanner.InsertOrUpdate constructor. -/
def InsertOrUpdate (table : String) (columns : List String)
    (values : List Value) : Mutation :=
  ⟨table, columns, values⟩

def singerColumns : List String := ["SingerId", "FirstName", "LastName"]

def albumColumns : List String := ["SingerId", "AlbumId", "AlbumTitle"]

/-- Model of the remote database state the program touches: the rows of the
two tables.  A Singer row carries the three columns the seed step writes;
an Album row carries (SingerId, AlbumId, AlbumTitle). -/
structure DB where
  singers : List (String × String × String)
  albums : List (String × String × String)
deriving DecidableEq

/-- Modelled external-service semantics (spec §3, §4.3): an
insert-or-update mutation upserts the row keyed by the primary key of
the table (SingerId for Singers, (SingerId, AlbumId) for Albums). -/
def applyMutation (db : DB) (m : Mutation) : DB :=
  if m.table = "Singers" ∧ m.columns = singerColumns then
    match m.values with
    | [.str i, .str fn, .str ln] =>
      { db with singers := db.singers.filter (fun r => decide (r.1 ≠ i)) ++ [(i, fn, ln)] }
    | _ => db
  else if m.table = "Albums" ∧ m.columns = albumColumns then
    match m.values with
    | [.str sid, .str aid, .str t] =>
      { db with albums :=
          db.albums.filter (fun r => decide (¬(r.1 = sid ∧ r.2.1 = aid))) ++ [(sid, aid, t)] }
    | _ => db
  else db

/-- One atomic all-or-nothing batch (client.Apply): when the service
accepts the batch, all its mutations are applied. -/
def applyBatch (db : DB) (ms : List Mutation) : DB :=
  ms.foldl applyMutation db

/-- Environment for the seed step: the outcome of the i-th uuid.NewRandom
call and the outcome of the k-th client.Apply call of the run. -/
structure InsertEnv where
  uuidRes : Nat → Except SpError String
  applyErr : Nat → Option SpError

/-- The uuid-generation loop of insert (main.go lines 97-105): starting at
index i, make n calls; return the generated identifiers (or the first
error) together with the log entries (index, uuid) emitted on the way. -/
def genLoop (env : InsertEnv) : Nat → Nat → Except SpError (List String) × List (Nat × String)
  | _, 0 => (.ok [], [])
  | i, n+1 =>
    match env.uuidRes i with
    | .error e => (.error e, [])
    | .ok u =>
      match genLoop env (i+1) n with
      | (.error e, ls) => (.error e, (i, u) :: ls)
      | (.ok us, ls) => (.ok (u :: us), (i, u) :: ls)

/-- The first mutation batch of insert (Singers rows, main.go lines
107-113), as a function of the generated identifiers. -/
def m1 (u : Nat → String) : List Mutation :=
  [ InsertOrUpdate "Singers" singerColumns [.str (u 0), .str "Marc", .str "Richards"],
    InsertOrUpdate "Singers" singerColumns [.str (u 1), .str "Catalina", .str "Smith"],
    InsertOrUpdate "Singers" singerColumns [.str (u 2), .str "Alice", .str "Trentor"],
    InsertOrUpdate "Singers" singerColumns [.str (u 3), .str "Lea", .str "Martin"],
    InsertOrUpdate "Singers" singerColumns [.str (u 4), .str "David", .str "Lomond"] ]

/-- The second mutation batch of insert (Albums rows, main.go lines
114-120). -/
def m2 (u : Nat → String) : List Mutation :=
  [ InsertOrUpdate "Albums" albumColumns [.str (u 0), .str (u 5), .str "Total Junk"],
    InsertOrUpdate "Albums" albumColumns [.str (u 1), .str (u 6), .str "Go, Go, Go"],
    InsertOrUpdate "Albums" albumColumns [.str (u 0), .str (u 7), .str "Green"],
    InsertOrUpdate "Albums" albumColumns [.str (u 1), .str (u 8), .str "Forever Hold Your Peace"],
    InsertOrUpdate "Albums" albumColumns [.str (u 2), .str (u 9), .str "Terrified"] ]

/-- Result of a run of insert: the returned error, the database state it
leaves behind, the uuid log entries, the batches it constructed, and the
Apply calls it actually made. -/
structure InsertResult where
  err : Option SpError
  db : DB
  log : List (Nat × String)
  built : List (List Mutation)
  appliedCalls : List (List Mutation)

/-- Embedding of insert (main.go lines 93-124): generate 10 identifiers
(returning early on a generation error), build the two batches, apply the
first, and only if it succeeded apply the second.  A failed Apply is
all-or-nothing: it leaves the database unchanged. -/
def insertRows (env : InsertEnv) (db : DB) : InsertResult :=
  match genLoop env 0 10 with
  | (.error e, ls) => { err := some e, db := db, log := ls, built := [], appliedCalls := [] }
  | (.ok us, ls) =>
    let u := fun k => us.getD k ""
    let b1 := m1 u
    let b2 := m2 u
    match env.applyErr 0 with
    | some e => { err := some e, db := db, log := ls, built := [b1, b2], appliedCalls := [b1] }
    | none =>
      let db1 := applyBatch db b1
      match env.applyErr 1 with
      | some e =>
        { err := some e, db := db1, log := ls, built := [b1, b2], appliedCalls := [b1, b2] }
      | none =>
        { err := none, db := applyBatch db1 b2, log := ls, built := [b1, b2],
          appliedCalls := [b1, b2] }

/-- The (SingerId, AlbumId, AlbumTitle) triples of the five Albums rows of
the second batch, as a function of the generated identifiers. -/
def expectedAlbums (u : Nat → String) : List (String × String × String) :=
  [ (u 0, u 5, "Total Junk"), (u 1, u 6, "Go, Go, Go"), (u 0, u 7, "Green"),
    (u 1, u 8, "Forever Hold Your Peace"), (u 2, u 9, "Terrified") ]

/-- Typed record produced by queryAlbums (struct Album in main.go). -/
structure Album where
  SingerId : String
  AlbumId : String
  AlbumTitle : String
deriving DecidableEq

/-- The triple of an Album record. -/
def Album.triple (a : Album) : String × String × String :=
  (a.SingerId, a.AlbumId, a.AlbumTitle)

/-- Embedding of row.Columns(&singerID, &albumID, &albumTitle): succeeds on
a row of exactly three string cells, otherwise a decode error. -/
def columnsDecode (r : List Value) : Except SpError (String × String × String) :=
  match r with
  | [.str a, .str b, .str c] => .ok (a, b, c)
  | _ => .error (.generic "decode error")

/-- The row stream the service produces for the query (spec §4.4): the
Albums rows of the database, encoded as three string cells each, in an
order the service does not specify. -/
def encodeRow (t : String × String × String) : Except SpError (List Value) :=
  .ok [.str t.1, .str t.2.1, .str t.2.2]

/-- The iteration loop of queryAlbums (main.go lines 131-153).  The input
list holds the successive results of iter.Next before the end-of-results
sentinel: reaching the end of the list is iterator.Done.  Each of the
three return paths exits the enclosing function and so fires the deferred
iter.Stop there; the second component counts the Stop invocations on the
taken exit path. -/
def queryLoop (albums : List Album) :
    List (Except SpError (List Value)) → Except SpError (List Album) × Nat
  | [] => (.ok albums, 1)
  | .error e :: _ => (.error e, 1)
  | .ok r :: rest =>
    match columnsDecode r with
    | .error e => (.error e, 1)
    | .ok (a, b, c) => queryLoop (albums ++ [⟨a, b, c⟩]) rest

/-- Embedding of queryAlbums (main.go lines 126-154): run the loop on the
stream of iterator results, starting from no collected albums. -/
def queryAlbums (stream : List (Except SpError (List Value))) :
    Except SpError (List Album) × Nat :=
  queryLoop [] stream

/-- Observable events of a run of main. -/
inductive MEvent where
  | acquireAdmin
  | acquireData
  | rpcCreateDatabase (parent : List Char) (name : List Char)
  | rpcApply (k : Nat)
  | rpcQuery
  | closeData
  | closeAdmin
deriving DecidableEq

/-- A remote service call (an RPC actually sent to the database service).
Constructing a client handle is local handle acquisition (spec §5), not a
remote call. -/
def MEvent.isRemote : MEvent → Bool
  | .rpcCreateDatabase _ _ => true
  | .rpcApply _ => true
  | .rpcQuery => true
  | _ => false

/-- Embedding of (*Client).Close (main.go lines 22-25): the two deferred
closes run in LIFO order.  This method is the only way the program can
release the two handles. -/
def clientCloseEvents : List MEvent := [.closeData, .closeAdmin]

/-- Environment for a whole run: outcomes of the two client constructions
and of the CreateDatabase RPC, the seed-step environment, and the stream
of iterator results the query produces. -/
structure MainEnv where
  newAdminErr : Option SpError
  newDataErr : Option SpError
  createDbErr : Option SpError
  insertEnv : InsertEnv
  queryStream : List (Except SpError (List Value))

/-- Embedding of createDatabase (main.go lines 57-91): parse the identifier
with the pattern; on failure return the Invalid-database-id error (a
fmt.Errorf error) without issuing the RPC; otherwise issue the
CreateDatabase RPC, whose outcome the environment decides. -/
def createDatabase (env : MainEnv) (db : List Char) : Option SpError × List MEvent :=
  match findStringSubmatch db with
  | none => (some (.generic "Invalid database id"), [])
  | some (p, n) => (env.createDbErr, [.rpcCreateDatabase p n])

/-- Exit of a run: logger.Fatal terminates the process with the given
message; success reaches the end of main. -/
inductive ExitStatus where
  | fatal (msg : String)
  | success
deriving DecidableEq

/-- The part of main after the createDatabase step (main.go lines 176-193):
seed, then query, then log the rows. -/
def mainTail (env : MainEnv) (db0 : DB) : ExitStatus × List MEvent :=
  let r := insertRows env.insertEnv db0
  let evs := (List.range r.appliedCalls.length).map MEvent.rpcApply
  match r.err with
  | some _ => (.fatal "insert records", evs)
  | none =>
    match (queryAlbums env.queryStream).1 with
    | .error _ => (.fatal "query records", evs ++ [.rpcQuery])
    | .ok _ => (.success, evs ++ [.rpcQuery])

/-- Embedding of main (main.go lines 156-194): create the two clients
(fatal on failure), create the database tolerating only the AlreadyExists
code, then seed and query.  No step closes the client handles. -/
def mainRun (env : MainEnv) (db : List Char) (db0 : DB) : ExitStatus × List MEvent :=
  match env.newAdminErr with
  | some _ => (.fatal "Create client", [])
  | none =>
    match env.newDataErr with
    | some _ => (.fatal "Create client", [.acquireAdmin])
    | none =>
      let cd := createDatabase env db
      let pre := [MEvent.acquireAdmin, MEvent.acquireData] ++ cd.2
      match cd.1 with
      | some e =>
        if ErrCode (some e) ≠ AlreadyExists then (.fatal "Create database", pre)
        else
          let t := mainTail env db0
          (t.1, pre ++ t.2)
      | none =>
        let t := mainTail env db0
        (t.1, pre ++ t.2)

/-- The hardcoded target identifier of this version (main.go line 160). -/
def dbConst : String :=
  "projects/create-table-test/instances/test-instance/databases/example-db"

theorem beginsWith_iff (p : List Char) : ∀ s, beginsWith p s = true ↔ ∃ t, s = p ++ t := by
  induction p with
  | nil => intro s; simp [beginsWith]
  | cons a ps ih =>
    intro s
    cases s with
    | nil => simp [beginsWith]
    | cons c cs =>
      simp only [beginsWith, Bool.and_eq_true, beq_iff_eq, ih cs, List.cons_append]
      constructor
      · rintro ⟨rfl, t, rfl⟩; exact ⟨t, rfl⟩
      · rintro ⟨t, h⟩
        injection h with h1 h2
        exact ⟨h1.symm, t, h2⟩

theorem splitAtLastSeg_sound :
    ∀ s p n, splitAtLastSeg s = some (p, n) → s = p ++ dbSeg ++ n := by
  intro s
  induction s with
  | nil => intro p n h; simp [splitAtLastSeg] at h
  | cons c rest ih =>
    intro p n h
    unfold splitAtLastSeg at h
    cases hr : splitAtLastSeg rest with
    | some pr =>
      rw [hr] at h
      obtain ⟨q, m⟩ := pr
      simp only [Option.some.injEq, Prod.mk.injEq] at h
      obtain ⟨h1, h2⟩ := h
      subst h1; subst h2
      have hrw := ih q m hr
      simp [hrw]
    | none =>
      rw [hr] at h
      by_cases hb : beginsWith dbSeg (c :: rest) = true
      · rw [if_pos hb] at h
        obtain ⟨t, ht⟩ := (beginsWith_iff dbSeg (c :: rest)).mp hb
        simp only [Option.some.injEq, Prod.mk.injEq] at h
        obtain ⟨h1, h2⟩ := h
        subst h1
        rw [ht, List.drop_left] at h2
        rw [ht, ← h2]
        simp
      · rw [if_neg hb] at h
        exact absurd h (by simp)

theorem splitAtLastSeg_none :
    ∀ s, splitAtLastSeg s = none → ∀ p n, s ≠ p ++ dbSeg ++ n := by
  intro s
  induction s with
  | nil =>
    intro _ p n h
    have hl := congrArg List.length h
    simp [dbSeg] at hl
    omega
  | cons c rest ih =>
    intro h p n hs
    unfold splitAtLastSeg at h
    cases hr : splitAtLastSeg rest with
    | some pr => rw [hr] at h; obtain ⟨q, m⟩ := pr; simp at h
    | none =>
      rw [hr] at h
      cases p with
      | nil =>
        have hb : beginsWith dbSeg (c :: rest) = true := by
          rw [beginsWith_iff]; exact ⟨n, by simpa using hs⟩
        rw [if_pos hb] at h; simp at h
      | cons a q =>
        have hq : rest = q ++ dbSeg ++ n := by
          simp only [List.cons_append] at hs
          injection hs with _ h2
        exact ih hr q n hq

theorem splitAtLastSeg_greedy :
    ∀ s p n, splitAtLastSeg s = some (p, n) → ∀ a b, n ≠ a ++ dbSeg ++ b := by
  intro s
  induction s with
  | nil => intro p n h; simp [splitAtLastSeg] at h
  | cons c rest ih =>
    intro p n h a b hn
    unfold splitAtLastSeg at h
    cases hr : splitAtLastSeg rest with
    | some pr =>
      rw [hr] at h
      obtain ⟨q, m⟩ := pr
      simp only [Option.some.injEq, Prod.mk.injEq] at h
      obtain ⟨h1, h2⟩ := h
      subst h2
      exact ih q m hr a b hn
    | none =>
      rw [hr] at h
      by_cases hb : beginsWith dbSeg (c :: rest) = true
      · rw [if_pos hb] at h
        simp only [Option.some.injEq, Prod.mk.injEq] at h
        obtain ⟨h1, h2⟩ := h
        obtain ⟨t, ht⟩ := (beginsWith_iff dbSeg (c :: rest)).mp hb
        rw [ht, List.drop_left] at h2
        rw [← h2] at hn
        -- t is a suffix of rest, so rest would contain the segment too
        have hrest : rest = dbSeg.tail ++ t := by
          cases hseg : dbSeg with
          | nil => exact absurd hseg (by decide)
          | cons d ds =>
            rw [hseg] at ht
            simp only [List.cons_append] at ht
            injection ht
        have hdec : rest = (dbSeg.tail ++ a) ++ dbSeg ++ b := by
          rw [hrest, hn]; simp
        exact splitAtLastSeg_none rest hr (dbSeg.tail ++ a) b hdec
      · rw [if_neg hb] at h; simp at h

/-- C1 counterexample: the claim asserts success on every string of the
form (parent)/databases/(name), but in RE2 the dot excludes newline, so
"a\n/databases/b" — which is of that form — does not match: the parser
returns none and createDatabase returns the invalid-identifier error. -/
theorem c1_newline_counterexample :
    "a\n/databases/b".toList = "a\n".toList ++ dbSeg ++ "b".toList ∧
    findStringSubmatch ("a\n/databases/b".toList) = none ∧
    createDatabase ⟨none, none, none, ⟨fun _ => .ok "u", fun _ => none⟩, []⟩
        ("a\n/databases/b".toList)
      = (some (.generic "Invalid database id"), []) :=
  ⟨by decide, by decide, by rfl⟩

/-- C1 (amended): the identifier parser in createDatabase succeeds on
every newline-free string of the form (parent)/databases/(name) — in RE2
the dot excludes newline, so the pattern matches nothing else — and on
success it returns exactly the two capture groups: a decomposition of the
(necessarily newline-free) input whose second component, the greedy
split, contains no further segment.  Every input containing a newline,
and every input with no /databases/ segment, makes the parser fail and
createDatabase return the invalid-identifier error without issuing the
CreateDatabase RPC. -/
theorem c1_parser_correct (s : List Char) :
    (∀ p n, s = p ++ dbSeg ++ n → '\n' ∉ s →
      ∃ q m, findStringSubmatch s = some (q, m)) ∧
    (∀ q m, findStringSubmatch s = some (q, m) →
      s = q ++ dbSeg ++ m ∧ (∀ a b, m ≠ a ++ dbSeg ++ b) ∧ '\n' ∉ s) ∧
    ('\n' ∈ s → findStringSubmatch s = none ∧
      ∀ env, createDatabase env s = (some (.generic "Invalid database id"), [])) ∧
    ((¬ ∃ p n, s = p ++ dbSeg ++ n) → findStringSubmatch s = none ∧
      ∀ env, createDatabase env s = (some (.generic "Invalid database id"), [])) := by
  refine ⟨?_, ?_, ?_, ?_⟩
  · intro p n hdec hn
    simp only [findStringSubmatch]
    rw [if_neg hn]
    cases hf : splitAtLastSeg s with
    | none => exact absurd hdec (splitAtLastSeg_none s hf p n)
    | some pr => obtain ⟨q, m⟩ := pr; exact ⟨q, m, rfl⟩
  · intro q m hf
    by_cases hn : '\n' ∈ s
    · simp only [findStringSubmatch] at hf
      rw [if_pos hn] at hf
      exact absurd hf (by simp)
    · simp only [findStringSubmatch] at hf
      rw [if_neg hn] at hf
      exact ⟨splitAtLastSeg_sound s q m hf, splitAtLastSeg_greedy s q m hf, hn⟩
  · intro hn
    have hf : findStringSubmatch s = none := by
      simp only [findStringSubmatch]
      rw [if_pos hn]
    exact ⟨hf, fun env => by simp [createDatabase, hf]⟩
  · intro hno
    have hsp : splitAtLastSeg s = none := by
      cases hf : splitAtLastSeg s with
      | none => rfl
      | some pr =>
        obtain ⟨q, m⟩ := pr
        exact absurd ⟨q, m, splitAtLastSeg_sound s q m hf⟩ hno
    have hf : findStringSubmatch s = none := by
      simp only [findStringSubmatch]
      by_cases hn : '\n' ∈ s
      · rw [if_pos hn]
      · rw [if_neg hn, hsp]
    exact ⟨hf, fun env => by simp [createDatabase, hf]⟩

theorem c1_parser_correct_witness :
    (∃ q m, findStringSubmatch ("a/databases/b".toList) = some (q, m)) ∧
    (findStringSubmatch ("a\nx".toList) = none ∧
      ∀ env, createDatabase env ("a\nx".toList) =
        (some (.generic "Invalid database id"), [])) ∧
    (findStringSubmatch ("nodatabase".toList) = none ∧
      ∀ env, createDatabase env ("nodatabase".toList) =
        (some (.generic "Invalid database id"), [])) := by
  refine ⟨?_, ?_, ?_⟩
  · exact (c1_parser_correct ("a/databases/b".toList)).1 "a".toList "b".toList
      (by decide) (by decide)
  · exact (c1_parser_correct ("a\nx".toList)).2.2.1 (by decide)
  · exact (c1_parser_correct ("nodatabase".toList)).2.2.2
      (by rintro ⟨p, n, h⟩; exact splitAtLastSeg_none _ (by decide) p n h)

/-- C10: both capture groups may be empty, so "/databases/" parses into
the pair ("", ""); and with several /databases/ segments the greedy first
group splits at the last occurrence, so "a/databases/b/databases/c"
parses into parent "a/databases/b" and name "c". -/
theorem c10_parser_edge_cases :
    findStringSubmatch ("/databases/".toList) = some ([], []) ∧
    findStringSubmatch ("a/databases/b/databases/c".toList) =
      some ("a/databases/b".toList, "c".toList) := by
  exact ⟨by decide, by decide⟩

theorem genLoop_ok (env : InsertEnv) :
    ∀ n i us ls, genLoop env i n = (.ok us, ls) →
      us.length = n ∧ ls = (List.range n).map (fun j => (i + j, us.getD j "")) ∧
      ∀ j, j < n → env.uuidRes (i + j) = .ok (us.getD j "") := by
  intro n
  induction n with
  | zero =>
    intro i us ls h
    simp only [genLoop, Prod.mk.injEq, Except.ok.injEq] at h
    obtain ⟨h1, h2⟩ := h
    subst h1; subst h2
    simp
  | succ n ih =>
    intro i us ls h
    simp only [genLoop] at h
    cases hu : env.uuidRes i with
    | error e => rw [hu] at h; simp at h
    | ok u =>
      rw [hu] at h
      cases hg : genLoop env (i + 1) n with
      | mk res ls2 =>
        rw [hg] at h
        cases res with
        | error e => simp at h
        | ok us2 =>
          simp only [Prod.mk.injEq, Except.ok.injEq] at h
          obtain ⟨h1, h2⟩ := h
          subst h1; subst h2
          obtain ⟨hl, hls, hres⟩ := ih (i + 1) us2 ls2 hg
          refine ⟨by simp [hl], ?_, ?_⟩
          · rw [List.range_succ_eq_map, List.map_cons, List.map_map]
            have hfun : ((fun j => (i + j, (u :: us2).getD j "")) ∘ Nat.succ)
                = fun j => (i + 1 + j, us2.getD j "") := by
              funext j
              simp only [Function.comp]
              congr 1
              omega
            rw [hfun, ← hls]
            simp
          · intro j hj
            cases j with
            | zero => simpa using hu
            | succ j =>
              have hj2 : j < n := by omega
              have := hres j hj2
              have harith : i + (j + 1) = i + 1 + j := by omega
              rw [harith]
              simpa using this

/-- C4: when the first Apply call (the Singers batch) fails, insert returns
that error, the second batch is never applied (the only Apply call made is
the first batch), and the database is unchanged, so no child row is
written in that run. -/
theorem c4_first_batch_failure (env : InsertEnv) (db : DB) (us : List String)
    (ls : List (Nat × String)) (e : SpError)
    (hgen : genLoop env 0 10 = (.ok us, ls))
    (happ : env.applyErr 0 = some e) :
    (insertRows env db).err = some e ∧
    (insertRows env db).appliedCalls = [m1 (fun k => us.getD k "")] ∧
    (insertRows env db).db = db := by
  simp [insertRows, hgen, happ]

theorem c4_first_batch_failure_witness :
    (insertRows ⟨fun _ => .ok "u", fun _ => some (.generic "boom")⟩ ⟨[], []⟩).err
        = some (.generic "boom") ∧
    (insertRows ⟨fun _ => .ok "u", fun _ => some (.generic "boom")⟩ ⟨[], []⟩).appliedCalls
        = [m1 (fun k => (List.replicate 10 "u").getD k "")] ∧
    (insertRows ⟨fun _ => .ok "u", fun _ => some (.generic "boom")⟩ ⟨[], []⟩).db = ⟨[], []⟩ :=
  c4_first_batch_failure ⟨fun _ => .ok "u", fun _ => some (.generic "boom")⟩ ⟨[], []⟩
    (List.replicate 10 "u")
    ((List.range 10).map (fun i => (i, "u"))) (.generic "boom") (by rfl) rfl

/-- C6: with all ten uuid generations succeeding, insert generates exactly
10 identifiers, logs each (index, uuid) pair, and builds exactly two
batches: 5 Singers upserts with fixed names keyed by the first five
identifiers and 5 Albums upserts with fixed titles, each referencing one
of the first three identifiers. -/
theorem c6_seed_construction (env : InsertEnv) (db : DB) (us : List String)
    (ls : List (Nat × String)) (hgen : genLoop env 0 10 = (.ok us, ls)) :
    us.length = 10 ∧
    (∀ i, i < 10 → env.uuidRes i = .ok (us.getD i "")) ∧
    (insertRows env db).log = (List.range 10).map (fun i => (i, us.getD i "")) ∧
    (insertRows env db).built =
      [ [ InsertOrUpdate "Singers" singerColumns
            [.str (us.getD 0 ""), .str "Marc", .str "Richards"],
          InsertOrUpdate "Singers" singerColumns
            [.str (us.getD 1 ""), .str "Catalina", .str "Smith"],
          InsertOrUpdate "Singers" singerColumns
            [.str (us.getD 2 ""), .str "Alice", .str "Trentor"],
          InsertOrUpdate "Singers" singerColumns
            [.str (us.getD 3 ""), .str "Lea", .str "Martin"],
          InsertOrUpdate "Singers" singerColumns
            [.str (us.getD 4 ""), .str "David", .str "Lomond"] ],
        [ InsertOrUpdate "Albums" albumColumns
            [.str (us.getD 0 ""), .str (us.getD 5 ""), .str "Total Junk"],
          InsertOrUpdate "Albums" albumColumns
            [.str (us.getD 1 ""), .str (us.getD 6 ""), .str "Go, Go, Go"],
          InsertOrUpdate "Albums" albumColumns
            [.str (us.getD 0 ""), .str (us.getD 7 ""), .str "Green"],
          InsertOrUpdate "Albums" albumColumns
            [.str (us.getD 1 ""), .str (us.getD 8 ""), .str "Forever Hold Your Peace"],
          InsertOrUpdate "Albums" albumColumns
            [.str (us.getD 2 ""), .str (us.getD 9 ""), .str "Terrified"] ] ] ∧
    (∀ ms ∈ (insertRows env db).built, ms.length = 5) ∧
    (∀ m ∈ (insertRows env db).built.getD 1 [],
      ∃ v, m.values.getD 0 (.str "") = .str v ∧
        v ∈ [us.getD 0 "", us.getD 1 "", us.getD 2 ""]) := by
  obtain ⟨hlen, hls, hres⟩ := genLoop_ok env 10 0 us ls hgen
  have hlog : (insertRows env db).log = ls := by
    cases h0 : env.applyErr 0 <;> cases h1 : env.applyErr 1 <;>
      simp [insertRows, hgen, h0, h1]
  have hbuilt : (insertRows env db).built
      = [m1 (fun k => us.getD k ""), m2 (fun k => us.getD k "")] := by
    cases h0 : env.applyErr 0 <;> cases h1 : env.applyErr 1 <;>
      simp [insertRows, hgen, h0, h1]
  refine ⟨hlen, ?_, ?_, ?_, ?_, ?_⟩
  · intro i hi
    simpa using hres i hi
  · rw [hlog, hls]
    simp
  · rw [hbuilt]
    simp [m1, m2]
  · rw [hbuilt]
    intro ms hms
    simp only [List.mem_cons, List.not_mem_nil, or_false] at hms
    rcases hms with rfl | rfl
    · simp [m1]
    · simp [m2]
  · rw [hbuilt]
    intro m hm
    simp only [List.getD_cons_succ, List.getD_cons_zero] at hm
    simp only [m2, InsertOrUpdate, List.mem_cons, List.not_mem_nil, or_false] at hm
    rcases hm with rfl | rfl | rfl | rfl | rfl
    · exact ⟨us.getD 0 "", rfl, by simp⟩
    · exact ⟨us.getD 1 "", rfl, by simp⟩
    · exact ⟨us.getD 0 "", rfl, by simp⟩
    · exact ⟨us.getD 1 "", rfl, by simp⟩
    · exact ⟨us.getD 2 "", rfl, by simp⟩

theorem c6_seed_construction_witness :
    (insertRows ⟨fun _ => .ok "u", fun _ => none⟩ ⟨[], []⟩).log
      = (List.range 10).map (fun i => (i, (List.replicate 10 "u").getD i "")) :=
  (c6_seed_construction ⟨fun _ => .ok "u", fun _ => none⟩ ⟨[], []⟩
    (List.replicate 10 "u") ((List.range 10).map (fun i => (i, "u"))) (by rfl)).2.2.1

theorem queryLoop_good_append :
    ∀ (good : List (Except SpError (List Value))),
      (∀ x ∈ good, ∃ r a, x = .ok r ∧ columnsDecode r = .ok a) →
      ∀ acc tail, ∃ acc2, queryLoop acc (good ++ tail) = queryLoop acc2 tail ∧
        acc2.length = acc.length + good.length := by
  intro good
  induction good with
  | nil =>
    intro _ acc tail
    exact ⟨acc, by simp, by simp⟩
  | cons x g ih =>
    intro h acc tail
    obtain ⟨r, a, hx, hd⟩ := h x (by simp)
    subst hx
    obtain ⟨a1, a2, a3⟩ := a
    obtain ⟨acc2, h2, hl⟩ := ih (fun y hy => h y (by simp [hy])) (acc ++ [⟨a1, a2, a3⟩]) tail
    refine ⟨acc2, ?_, ?_⟩
    · rw [List.cons_append]
      simp only [queryLoop, hd]
      exact h2
    · simp at hl
      simp [hl]
      omega

theorem queryLoop_stop : ∀ (stream : List (Except SpError (List Value))) acc,
    (queryLoop acc stream).2 = 1 := by
  intro stream
  induction stream with
  | nil => intro acc; rfl
  | cons x rest ih =>
    intro acc
    cases x with
    | error e => rfl
    | ok r =>
      cases hd : columnsDecode r with
      | error e => simp [queryLoop, hd]
      | ok a =>
        obtain ⟨a1, a2, a3⟩ := a
        simp only [queryLoop, hd]
        exact ih (acc ++ [⟨a1, a2, a3⟩])

/-- C5: the iteration of queryAlbums terminates normally exactly on the
end-of-results sentinel: a stream whose entries are all decodable rows
ends with the collected rows and no error, while an iteration error or a
column-decode error anywhere makes queryAlbums return that error instead
of a row list. -/
theorem c5_query_termination :
    (∀ stream, (∀ x ∈ stream, ∃ r a, x = .ok r ∧ columnsDecode r = .ok a) →
      ∃ as, (queryAlbums stream).1 = .ok as ∧ as.length = stream.length) ∧
    (∀ (good : List (Except SpError (List Value))) e rest,
      (∀ x ∈ good, ∃ r a, x = .ok r ∧ columnsDecode r = .ok a) →
      (queryAlbums (good ++ .error e :: rest)).1 = .error e) ∧
    (∀ (good : List (Except SpError (List Value))) r e rest,
      (∀ x ∈ good, ∃ r2 a, x = .ok r2 ∧ columnsDecode r2 = .ok a) →
      columnsDecode r = .error e →
      (queryAlbums (good ++ .ok r :: rest)).1 = .error e) := by
  refine ⟨?_, ?_, ?_⟩
  · intro stream h
    obtain ⟨acc2, h2, hl⟩ := queryLoop_good_append stream h [] []
    rw [List.append_nil] at h2
    exact ⟨acc2, by simp [queryAlbums, h2, queryLoop], by simpa using hl⟩
  · intro good e rest h
    obtain ⟨acc2, h2, _⟩ := queryLoop_good_append good h [] (.error e :: rest)
    simp [queryAlbums, h2, queryLoop]
  · intro good r e rest h hd
    obtain ⟨acc2, h2, _⟩ := queryLoop_good_append good h [] (.ok r :: rest)
    simp [queryAlbums, h2, queryLoop, hd]

theorem c5_query_termination_witness :
    (∃ as, (queryAlbums [encodeRow ("s", "a", "t")]).1 = .ok as ∧
      as.length = [encodeRow ("s", "a", "t")].length) ∧
    (queryAlbums ([] ++ .error (.generic "boom") :: [])).1 = .error (.generic "boom") ∧
    (queryAlbums ([] ++ .ok [] :: [])).1 = .error (.generic "decode error") := by
  refine ⟨?_, ?_, ?_⟩
  · exact c5_query_termination.1 [encodeRow ("s", "a", "t")]
      (fun x hx => ⟨[.str "s", .str "a", .str "t"], ("s", "a", "t"),
        by simpa [encodeRow] using hx, rfl⟩)
  · exact c5_query_termination.2.1 [] (.generic "boom") [] (by simp)
  · exact c5_query_termination.2.2 [] [] (.generic "decode error") [] (by simp) rfl

/-- C9: on every exit path of queryAlbums — normal exhaustion at the
end-of-results sentinel, an iteration error, or a column-decode error —
the deferred iter.Stop is invoked exactly once. -/
theorem c9_stop_exactly_once (stream : List (Except SpError (List Value))) :
    (queryAlbums stream).2 = 1 :=
  queryLoop_stop stream []

theorem createDatabase_events (env : MainEnv) (db : List Char) :
    ∀ ev ∈ (createDatabase env db).2, ∃ p n, ev = .rpcCreateDatabase p n := by
  intro ev hev
  unfold createDatabase at hev
  cases hf : findStringSubmatch db with
  | none => rw [hf] at hev; simp at hev
  | some pr =>
    obtain ⟨p, n⟩ := pr
    rw [hf] at hev
    simp only [List.mem_singleton] at hev
    exact ⟨p, n, hev⟩

theorem mainTail_events (env : MainEnv) (db0 : DB) :
    ∀ ev ∈ (mainTail env db0).2, (∃ k, ev = .rpcApply k) ∨ ev = .rpcQuery := by
  intro ev hev
  cases he : (insertRows env.insertEnv db0).err with
  | some e =>
    simp only [mainTail, he, List.mem_map] at hev
    obtain ⟨k, _, hk⟩ := hev
    exact Or.inl ⟨k, hk.symm⟩
  | none =>
    cases hq : (queryAlbums env.queryStream).1 with
    | error e =>
      simp only [mainTail, he, hq, List.mem_append, List.mem_map,
        List.mem_singleton] at hev
      rcases hev with ⟨k, _, hk⟩ | hk
      · exact Or.inl ⟨k, hk.symm⟩
      · exact Or.inr hk
    | ok as =>
      simp only [mainTail, he, hq, List.mem_append, List.mem_map,
        List.mem_singleton] at hev
      rcases hev with ⟨k, _, hk⟩ | hk
      · exact Or.inl ⟨k, hk.symm⟩
      · exact Or.inr hk

theorem mainRun_events (env : MainEnv) (db : List Char) (db0 : DB) :
    ∀ ev ∈ (mainRun env db db0).2,
      ev = .acquireAdmin ∨ ev = .acquireData ∨
      (∃ p n, ev = .rpcCreateDatabase p n) ∨ (∃ k, ev = .rpcApply k) ∨ ev = .rpcQuery := by
  intro ev hev
  cases ha : env.newAdminErr with
  | some e => simp [mainRun, ha] at hev
  | none =>
    cases hd : env.newDataErr with
    | some e =>
      simp only [mainRun, ha, hd, List.mem_singleton] at hev
      exact Or.inl hev
    | none =>
      simp only [mainRun, ha, hd] at hev
      cases hcd : (createDatabase env db).1 with
      | some e =>
        simp only [hcd] at hev
        by_cases hcode : ErrCode (some e) ≠ AlreadyExists
        · rw [if_pos hcode] at hev
          simp only [List.cons_append, List.nil_append, List.mem_cons] at hev
          rcases hev with rfl | rfl | hev
          · exact Or.inl rfl
          · exact Or.inr (Or.inl rfl)
          · exact Or.inr (Or.inr (Or.inl (createDatabase_events env db ev hev)))
        · rw [if_neg hcode] at hev
          simp only [List.cons_append, List.nil_append, List.mem_cons,
            List.mem_append] at hev
          rcases hev with rfl | rfl | hev | hev
          · exact Or.inl rfl
          · exact Or.inr (Or.inl rfl)
          · exact Or.inr (Or.inr (Or.inl (createDatabase_events env db ev hev)))
          · exact Or.inr (Or.inr (Or.inr (mainTail_events env db0 ev hev)))
      | none =>
        simp only [hcd] at hev
        simp only [List.cons_append, List.nil_append, List.mem_cons,
          List.mem_append] at hev
        rcases hev with rfl | rfl | hev | hev
        · exact Or.inl rfl
        · exact Or.inr (Or.inl rfl)
        · exact Or.inr (Or.inr (Or.inl (createDatabase_events env db ev hev)))
        · exact Or.inr (Or.inr (Or.inr (mainTail_events env db0 ev hev)))

/-- C7 (refuted by the code): no run of main ever closes either handle.
main never invokes (*Client).Close — the method exists (clientCloseEvents)
but is dead code — so neither close event appears in any trace, on any
exit path. -/
theorem c7_clients_never_closed (env : MainEnv) (db : List Char) (db0 : DB) :
    ∀ ev ∈ clientCloseEvents, ev ∉ (mainRun env db db0).2 := by
  intro ev hev hmem
  have hforms := mainRun_events env db db0 ev hmem
  simp only [clientCloseEvents, List.mem_cons, List.not_mem_nil, or_false] at hev
  rcases hev with rfl | rfl <;>
    rcases hforms with h | h | ⟨p, n, h⟩ | ⟨k, h⟩ | h <;> simp at h

/-- C3: when createDatabase returns an error classified AlreadyExists,
main does not terminate there — the run continues exactly as the
post-provisioning tail (seed step, then query); for any other error code
main terminates fatally at the Create-database step, and neither an Apply
call nor the query is ever made. -/
theorem c3_already_exists_tolerated (env : MainEnv) (db : List Char) (db0 : DB)
    (e : SpError) (ha : env.newAdminErr = none) (hd : env.newDataErr = none)
    (hcd : (createDatabase env db).1 = some e) :
    (ErrCode (some e) = AlreadyExists →
      (mainRun env db db0).1 = (mainTail env db0).1 ∧
      (mainRun env db db0).2 =
        [MEvent.acquireAdmin, MEvent.acquireData] ++ (createDatabase env db).2
          ++ (mainTail env db0).2) ∧
    (ErrCode (some e) ≠ AlreadyExists →
      (mainRun env db db0).1 = .fatal "Create database" ∧
      (mainRun env db db0).2 =
        [MEvent.acquireAdmin, MEvent.acquireData] ++ (createDatabase env db).2 ∧
      (∀ k, MEvent.rpcApply k ∉ (mainRun env db db0).2) ∧
      MEvent.rpcQuery ∉ (mainRun env db db0).2) := by
  constructor
  · intro hcode
    have hcode2 : ¬ ErrCode (some e) ≠ AlreadyExists := by simp [hcode]
    constructor <;>
      simp [mainRun, ha, hd, hcd, if_neg hcode2]
  · intro hcode
    have htrace : (mainRun env db db0).2 =
        [MEvent.acquireAdmin, MEvent.acquireData] ++ (createDatabase env db).2 := by
      simp [mainRun, ha, hd, hcd, if_pos hcode]
    refine ⟨by simp [mainRun, ha, hd, hcd, if_pos hcode], htrace, ?_, ?_⟩
    · intro k hk
      rw [htrace] at hk
      simp only [List.cons_append, List.nil_append, List.mem_cons] at hk
      rcases hk with h | h | h
      · exact absurd h (by simp)
      · exact absurd h (by simp)
      · obtain ⟨p, n, heq⟩ := createDatabase_events env db _ h
        exact absurd heq (by simp)
    · intro hq
      rw [htrace] at hq
      simp only [List.cons_append, List.nil_append, List.mem_cons] at hq
      rcases hq with h | h | h
      · exact absurd h (by simp)
      · exact absurd h (by simp)
      · obtain ⟨p, n, heq⟩ := createDatabase_events env db _ h
        exact absurd heq (by simp)

theorem c3_already_exists_tolerated_witness :
    ((mainRun ⟨none, none, some (.rpc 6 "dup"), ⟨fun _ => .ok "u", fun _ => none⟩, []⟩
        ("a/databases/b".toList) ⟨[], []⟩).1 =
      (mainTail ⟨none, none, some (.rpc 6 "dup"), ⟨fun _ => .ok "u", fun _ => none⟩, []⟩
        ⟨[], []⟩).1 ∧
     (mainRun ⟨none, none, some (.rpc 6 "dup"), ⟨fun _ => .ok "u", fun _ => none⟩, []⟩
        ("a/databases/b".toList) ⟨[], []⟩).2 =
      [MEvent.acquireAdmin, MEvent.acquireData] ++
        (createDatabase ⟨none, none, some (.rpc 6 "dup"), ⟨fun _ => .ok "u", fun _ => none⟩, []⟩
          ("a/databases/b".toList)).2 ++
        (mainTail ⟨none, none, some (.rpc 6 "dup"), ⟨fun _ => .ok "u", fun _ => none⟩, []⟩
          ⟨[], []⟩).2) ∧
    ((mainRun ⟨none, none, some (.rpc 13 "denied"), ⟨fun _ => .ok "u", fun _ => none⟩, []⟩
        ("a/databases/b".toList) ⟨[], []⟩).1 = .fatal "Create database") := by
  constructor
  · exact (c3_already_exists_tolerated
      ⟨none, none, some (.rpc 6 "dup"), ⟨fun _ => .ok "u", fun _ => none⟩, []⟩
      ("a/databases/b".toList) ⟨[], []⟩ (.rpc 6 "dup") rfl rfl (by rfl)).1 rfl
  · exact ((c3_already_exists_tolerated
      ⟨none, none, some (.rpc 13 "denied"), ⟨fun _ => .ok "u", fun _ => none⟩, []⟩
      ("a/databases/b".toList) ⟨[], []⟩ (.rpc 13 "denied") rfl rfl (by rfl)).2
        (by decide)).1

/-- C8: a malformed target identifier (one admitting no
parent/databases/name decomposition) makes every run terminate fatally,
and no remote service call (CreateDatabase, Apply, or the query) appears
in the trace — only local handle acquisitions can. -/
theorem c8_malformed_fatal_no_rpc (env : MainEnv) (db : List Char) (db0 : DB)
    (h : ∀ p n, db ≠ p ++ dbSeg ++ n) :
    (∃ s, (mainRun env db db0).1 = .fatal s) ∧
    ∀ ev ∈ (mainRun env db db0).2, ev.isRemote = false := by
  have hf : findStringSubmatch db = none := by
    by_cases hn : '\n' ∈ db
    · simp [findStringSubmatch, hn]
    · have hsp : splitAtLastSeg db = none := by
        cases hfs : splitAtLastSeg db with
        | none => rfl
        | some pr =>
          obtain ⟨q, m⟩ := pr
          exact absurd (splitAtLastSeg_sound db q m hfs) (h q m)
      simp [findStringSubmatch, hn, hsp]
  have hcd : createDatabase env db = (some (.generic "Invalid database id"), []) := by
    simp [createDatabase, hf]
  cases ha : env.newAdminErr with
  | some e =>
    refine ⟨⟨"Create client", by simp [mainRun, ha]⟩, ?_⟩
    intro ev hev
    simp [mainRun, ha] at hev
  | none =>
    cases hd : env.newDataErr with
    | some e =>
      refine ⟨⟨"Create client", by simp [mainRun, ha, hd]⟩, ?_⟩
      intro ev hev
      simp only [mainRun, ha, hd, List.mem_singleton] at hev
      subst hev
      rfl
    | none =>
      have hcode : ErrCode (some (SpError.generic "Invalid database id")) ≠ AlreadyExists := by
        decide
      refine ⟨⟨"Create database", ?_⟩, ?_⟩
      · simp [mainRun, ha, hd, hcd, if_pos hcode]
      · intro ev hev
        simp only [mainRun, ha, hd, hcd, if_pos hcode] at hev
        simp only [List.append_nil, List.mem_cons, List.not_mem_nil, or_false] at hev
        rcases hev with rfl | rfl <;> rfl

theorem c8_malformed_fatal_no_rpc_witness :
    (∃ s, (mainRun ⟨none, none, none, ⟨fun _ => .ok "u", fun _ => none⟩, []⟩
      ("x".toList) ⟨[], []⟩).1 = .fatal s) ∧
    ∀ ev ∈ (mainRun ⟨none, none, none, ⟨fun _ => .ok "u", fun _ => none⟩, []⟩
      ("x".toList) ⟨[], []⟩).2, ev.isRemote = false :=
  c8_malformed_fatal_no_rpc ⟨none, none, none, ⟨fun _ => .ok "u", fun _ => none⟩, []⟩
    ("x".toList) ⟨[], []⟩ (splitAtLastSeg_none ("x".toList) (by decide))

theorem applyBatch_m1_albums (db : DB) (u : Nat → String) :
    (applyBatch db (m1 u)).albums = db.albums := by
  simp [applyBatch, m1, applyMutation, InsertOrUpdate, singerColumns, albumColumns]

theorem applyBatch_m2_albums (db : DB) (u : Nat → String)
    (h56 : u 5 ≠ u 6) (h57 : u 5 ≠ u 7) (h58 : u 5 ≠ u 8) (h59 : u 5 ≠ u 9)
    (h67 : u 6 ≠ u 7) (h68 : u 6 ≠ u 8) (h69 : u 6 ≠ u 9)
    (h78 : u 7 ≠ u 8) (h79 : u 7 ≠ u 9) (h89 : u 8 ≠ u 9)
    (halb : db.albums = []) :
    (applyBatch db (m2 u)).albums = expectedAlbums u := by
  simp [applyBatch, m2, applyMutation, InsertOrUpdate, expectedAlbums,
    singerColumns, albumColumns, halb, h56, h57, h58, h59, h67, h68, h69,
    h78, h79, h89]

theorem queryLoop_encoded :
    ∀ (l : List (String × String × String)) (acc : List Album),
      queryLoop acc (l.map encodeRow)
        = (.ok (acc ++ l.map (fun t => ⟨t.1, t.2.1, t.2.2⟩)), 1) := by
  intro l
  induction l with
  | nil => intro acc; simp [queryLoop]
  | cons t l2 ih =>
    intro acc
    obtain ⟨t1, t2, t3⟩ := t
    simp only [List.map_cons, encodeRow, queryLoop, columnsDecode]
    rw [ih]
    simp

/-- C2: after a successful seed (all uuid generations and both Apply calls
succeed, distinct identifiers, fresh database), running queryAlbums over
the stored Albums rows — enumerated by the service in any order — returns
exactly 5 rows, and the multiset of their (SingerId, AlbumId, AlbumTitle)
triples is exactly the 5 child-row triples of the second mutation
batch. -/
theorem c2_seed_then_query (env : InsertEnv) (db : DB) (us : List String)
    (ls : List (Nat × String))
    (hgen : genLoop env 0 10 = (.ok us, ls))
    (h0 : env.applyErr 0 = none) (h1 : env.applyErr 1 = none)
    (halb : db.albums = [])
    (hdist : ∀ i j : Fin 10, i ≠ j → us.getD i.val "" ≠ us.getD j.val "")
    (rows : List (String × String × String))
    (hperm : rows.Perm (insertRows env db).db.albums) :
    (insertRows env db).err = none ∧
    ∃ as, (queryAlbums (rows.map encodeRow)).1 = .ok as ∧
      as.length = 5 ∧
      (as.map Album.triple).Perm (expectedAlbums (fun k => us.getD k "")) := by
  have hdb : (insertRows env db).db
      = applyBatch (applyBatch db (m1 (fun k => us.getD k "")))
          (m2 (fun k => us.getD k "")) := by
    simp [insertRows, hgen, h0, h1]
  have halb1 : (applyBatch db (m1 (fun k => us.getD k ""))).albums = [] := by
    rw [applyBatch_m1_albums]; exact halb
  have hd : ∀ i j : Fin 10, i ≠ j →
      (fun k => us.getD k "") i.val ≠ (fun k => us.getD k "") j.val := hdist
  have halbums : (insertRows env db).db.albums
      = expectedAlbums (fun k => us.getD k "") := by
    rw [hdb]
    exact applyBatch_m2_albums _ _
      (hd 5 6 (by decide)) (hd 5 7 (by decide)) (hd 5 8 (by decide))
      (hd 5 9 (by decide)) (hd 6 7 (by decide)) (hd 6 8 (by decide))
      (hd 6 9 (by decide)) (hd 7 8 (by decide)) (hd 7 9 (by decide))
      (hd 8 9 (by decide)) halb1
  refine ⟨by simp [insertRows, hgen, h0, h1], ?_⟩
  refine ⟨rows.map (fun t => ⟨t.1, t.2.1, t.2.2⟩), ?_, ?_, ?_⟩
  · simp [queryAlbums, queryLoop_encoded rows []]
  · have h5 : rows.length = 5 := by
      rw [hperm.length_eq, halbums]
      rfl
    simp [h5]
  · have hmap : (rows.map (fun t => (⟨t.1, t.2.1, t.2.2⟩ : Album))).map Album.triple
        = rows := by
      rw [List.map_map]
      have : (Album.triple ∘ fun t : String × String × String
          => (⟨t.1, t.2.1, t.2.2⟩ : Album)) = id := by
        funext t
        rfl
      rw [this, List.map_id]
    rw [hmap]
    rw [← halbums]
    exact hperm

theorem c2_seed_then_query_witness :
    (insertRows ⟨fun i => .ok (match i with
        | 0 => "a" | 1 => "b" | 2 => "c" | 3 => "d" | 4 => "e"
        | 5 => "f" | 6 => "g" | 7 => "h" | 8 => "i" | _ => "j"),
      fun _ => none⟩ ⟨[], []⟩).err = none ∧
    ∃ as, (queryAlbums (((insertRows ⟨fun i => .ok (match i with
        | 0 => "a" | 1 => "b" | 2 => "c" | 3 => "d" | 4 => "e"
        | 5 => "f" | 6 => "g" | 7 => "h" | 8 => "i" | _ => "j"),
      fun _ => none⟩ ⟨[], []⟩).db.albums).map encodeRow)).1 = .ok as ∧
      as.length = 5 ∧
      (as.map Album.triple).Perm (expectedAlbums (fun k =>
        (["a", "b", "c", "d", "e", "f", "g", "h", "i", "j"]).getD k "")) :=
  c2_seed_then_query ⟨fun i => .ok (match i with
        | 0 => "a" | 1 => "b" | 2 => "c" | 3 => "d" | 4 => "e"
        | 5 => "f" | 6 => "g" | 7 => "h" | 8 => "i" | _ => "j"),
      fun _ => none⟩ ⟨[], []⟩
    ["a", "b", "c", "d", "e", "f", "g", "h", "i", "j"]
    ((List.range 10).map (fun i => (i, (["a", "b", "c", "d", "e", "f", "g",
      "h", "i", "j"]).getD i "")))
    (by rfl) rfl rfl rfl (by decide) _ (List.Perm.refl _)

theorem c7_clients_never_closed_witness :
    MEvent.closeData ∉ (mainRun ⟨none, none, none, ⟨fun _ => .ok "u", fun _ => none⟩, []⟩
      ("a/databases/b".toList) ⟨[], []⟩).2 :=
  c7_clients_never_closed ⟨none, none, none, ⟨fun _ => .ok "u", fun _ => none⟩, []⟩
    ("a/databases/b".toList) ⟨[], []⟩ MEvent.closeData (by decide)
